import Mathlib

/-!
Verification development for the C wrapper around the Apache DataSketches
KLL quantile sketch (`src/libdatasketches_sys/wrapper.cpp`).

The wrapper code itself is embedded faithfully below.  The underlying
engine (`datasketches::kll_sketch`) is not part of this repository; the
definitions in the `Engine` section are therefore modelled from the
specification's description of the engine's contracts (its data model,
query semantics, error taxonomy and serialization layout).

Modelling conventions:
* item values (C `float` / `double`) are modelled as `Int`, the numeric
  domain being abstracted away from its machine width;
* rank fractions (C `double` in `[0,1]`) are modelled as `ℚ`;
* a nullable C handle is `Option KllSketch`;
* a C++ exception escaping a function is an `Except.error`; a wrapper
  function that catches every exception (`try { ... } catch (...)`) has a
  plain (non-`Except`) return type;
* an output array is a `List` passed in and returned, so that "entries
  left untouched" is expressible.
-/

/-- Modelled from the spec: the internal error taxonomy of the engine
(§7): invalid `k` at construction, empty-sketch queries, out-of-range
fractions, malformed serialized input. -/
inductive KllError where
  | construction
  | emptySketch
  | rangeError
  | deserialization
deriving DecidableEq, Repr

/-- Modelled from the spec: the sketch data model (§3) — accuracy
parameter `k`, total update count `n`, the ordered sequence of levels
(index 0 first), global extrema (meaningful only when `n ≠ 0`), and the
lazily-maintained sortedness flag for level 0. -/
structure KllSketch where
  k : Nat
  n : Nat
  levels : List (List Int)
  min_item : Int
  max_item : Int
  is_level_zero_sorted : Bool
deriving DecidableEq, Repr

namespace KllSketch

/-- Modelled from the spec: minimum accepted accuracy parameter. -/
def MIN_K : Nat := 8

/-- Modelled from the spec: maximum accepted accuracy parameter. -/
def MAX_K : Nat := 65535

/-- Modelled from the spec: the library-chosen default `k` used by the
parameterless constructor. -/
def DEFAULT_K : Nat := 200

/-- Modelled from the spec: construction with an explicit `k` validates
the bound and fails with a construction error outside it (§3, §7). -/
def newWithK (k : Nat) : Except KllError KllSketch :=
  if k < MIN_K ∨ MAX_K < k then .error .construction
  else .ok ⟨k, 0, [[]], 0, 0, true⟩

/-- Modelled from the spec: the parameterless constructor uses the
default `k`, which satisfies the bound, so it cannot fail. -/
def new : KllSketch :=
  ⟨DEFAULT_K, 0, [[]], 0, 0, true⟩

/-- Modelled from the spec: `is_empty()` is true iff `n == 0` (§4.4). -/
def is_empty (s : KllSketch) : Bool := s.n == 0

/-- Modelled from the spec: `get_k` returns the accuracy parameter. -/
def get_k (s : KllSketch) : Nat := s.k

/-- Modelled from the spec: `get_n` returns the total update count. -/
def get_n (s : KllSketch) : Nat := s.n

/-- Modelled from the spec: `get_num_retained()` is the total count of
items currently buffered across all levels (§4.4). -/
def get_num_retained (s : KllSketch) : Nat :=
  (s.levels.map List.length).sum

/-- Modelled from the spec: `is_estimation_mode()` is true once levels
beyond level 0 carry promoted, weighted data (§4.4). -/
def is_estimation_mode (s : KllSketch) : Bool :=
  (s.levels.drop 1).any (fun l => !l.isEmpty)

/-- Modelled from the spec: `get_min_item()` fails with an empty-sketch
error when the sketch is empty (§4.4). -/
def get_min_item (s : KllSketch) : Except KllError Int :=
  if s.n = 0 then .error .emptySketch else .ok s.min_item

/-- Modelled from the spec: `get_max_item()` fails with an empty-sketch
error when the sketch is empty (§4.4). -/
def get_max_item (s : KllSketch) : Except KllError Int :=
  if s.n = 0 then .error .emptySketch else .ok s.max_item

/-- Pair every item of each level with that level's weight, the weight
doubling from level to level. -/
def weightedLevels : Nat → List (List Int) → List (Int × Nat)
  | _, [] => []
  | w, l :: ls => l.map (fun x => (x, w)) ++ weightedLevels (2 * w) ls

/-- Modelled from the spec: the weighted view of all retained items —
each item of level `i` carries weight `2^i` (§3). -/
def weightedItems (s : KllSketch) : List (Int × Nat) :=
  weightedLevels 1 s.levels

/-- Insertion of a weighted item into a list sorted by item value. -/
def insertWeighted (p : Int × Nat) : List (Int × Nat) → List (Int × Nat)
  | [] => [p]
  | q :: t => if p.1 ≤ q.1 then p :: q :: t else q :: insertWeighted p t

/-- Sort a weighted item list by item value (insertion sort). -/
def sortWeighted : List (Int × Nat) → List (Int × Nat)
  | [] => []
  | p :: t => insertWeighted p (sortWeighted t)

/-- Cumulative-weight search: the first item whose cumulative weight
reaches the target, falling back to the last item. -/
def cumSearch (target : ℚ) : Nat → Int → List (Int × Nat) → Int
  | _, last, [] => last
  | acc, _, (x, w) :: t =>
      if target ≤ ((acc + w : Nat) : ℚ) then x else cumSearch target (acc + w) x t

/-- Modelled from the spec: `get_quantile(fraction)` requires the
fraction in `[0,1]` (range error otherwise), errors on an empty sketch,
and otherwise returns the smallest item whose weighted cumulative rank
reaches `fraction × n`, by cumulative-weight search over the weighted
sorted view (§4.4, §7). -/
def get_quantile (s : KllSketch) (fraction : ℚ) : Except KllError Int :=
  if fraction < 0 ∨ 1 < fraction then .error .rangeError
  else if s.n = 0 then .error .emptySketch
  else .ok (cumSearch (fraction * s.n) 0 0 (sortWeighted s.weightedItems))

/-- Modelled from the spec: `get_rank(value)` errors on an empty sketch
and otherwise returns the weighted fraction of retained items `≤ value`
(§4.4). -/
def get_rank (s : KllSketch) (value : Int) : Except KllError ℚ :=
  if s.n = 0 then .error .emptySketch
  else .ok (((s.weightedItems.filter (fun p => p.1 ≤ value)).map Prod.snd).sum / (s.n : ℚ))

/-- Modelled from the spec: `update(value)` appends to level 0, bumps
`n`, maintains min/max, and marks level 0 unsorted (§4.1).  The
randomized capacity-triggered compaction that may follow is
seed-dependent and outside the deterministic fragment modelled here. -/
def update (s : KllSketch) (value : Int) : KllSketch :=
  { s with
    n := s.n + 1
    levels :=
      match s.levels with
      | [] => [[value]]
      | l0 :: rest => (value :: l0) :: rest
    min_item := if s.n = 0 then value else min s.min_item value
    max_item := if s.n = 0 then value else max s.max_item value
    is_level_zero_sorted := false }

/-- Concatenate level buffers of matching weight. -/
def combineLevels : List (List Int) → List (List Int) → List (List Int)
  | [], m => m
  | l, [] => l
  | l :: ls, m :: ms => (l ++ m) :: combineLevels ls ms

/-- Modelled from the spec: `merge` concatenates level buffers at
matching weight and combines `n`, min and max (§4.3).  The subsequent
capacity re-check and randomized re-compaction are seed-dependent and
outside the deterministic fragment modelled here. -/
def merge (s other : KllSketch) : KllSketch :=
  if other.n = 0 then s
  else if s.n = 0 then
    { other with k := s.k }
  else
    { s with
      n := s.n + other.n
      levels := combineLevels s.levels other.levels
      min_item := min s.min_item other.min_item
      max_item := max s.max_item other.max_item
      is_level_zero_sorted := false }

/-- Modelled from the spec: the serialization format-version tag (§4.5). -/
def FORMAT_VERSION : Int := 2

/-- Modelled from the spec: the compact flags byte — bit 0 empty,
bit 1 single-item, bit 2 level-zero-sorted (§4.5). -/
def flagsByte (s : KllSketch) : Int :=
  (if s.n = 0 then 1 else 0) + (if s.n = 1 then 2 else 0) +
    (if s.is_level_zero_sorted then 4 else 0)

/-- Modelled from the spec: `serialize()` emits the format-version tag,
`k`, `n`, the flags byte, min and max items, the per-level item counts,
and the concatenated item payloads in level order (§4.5). -/
def serialize (s : KllSketch) : List Int :=
  FORMAT_VERSION :: (s.k : Int) :: (s.n : Int) :: flagsByte s :: s.min_item :: s.max_item ::
    (s.levels.length : Int) ::
      (s.levels.map (fun l => (l.length : Int)) ++ s.levels.flatten)

/-- Split a payload into consecutive chunks of the given sizes. -/
def splitByCounts : List Nat → List Int → List (List Int)
  | [], _ => []
  | c :: cs, payload => payload.take c :: splitByCounts cs (payload.drop c)

/-- Modelled from the spec: `deserialize(bytes)` is the inverse of
`serialize` and fails with a malformed-input error on truncated input,
an unsupported format-version tag, or internally inconsistent counts
(declared level sizes not matching the payload length) (§4.5, §7). -/
def deserialize (bytes : List Int) : Except KllError KllSketch :=
  match bytes with
  | v :: k :: n :: flags :: mn :: mx :: numLevels :: rest =>
    if v ≠ FORMAT_VERSION then .error .deserialization
    else if k < (MIN_K : Int) ∨ (MAX_K : Int) < k then .error .deserialization
    else if n < 0 then .error .deserialization
    else if numLevels < 0 ∨ (rest.length : Int) < numLevels then .error .deserialization
    else
      let counts := rest.take numLevels.toNat
      let payload := rest.drop numLevels.toNat
      if counts.any (fun c => c < 0) then .error .deserialization
      else if payload.length ≠ (counts.map Int.toNat).sum then .error .deserialization
      else if flags ≠ (if n = 0 then 1 else 0) + (if n = 1 then 2 else 0) ∧
              flags ≠ (if n = 0 then 1 else 0) + (if n = 1 then 2 else 0) + 4 then
        .error .deserialization
      else
        .ok ⟨k.toNat, n.toNat, splitByCounts (counts.map Int.toNat) payload, mn, mx,
          decide (4 ≤ flags)⟩
  | _ => .error .deserialization

end KllSketch

/-- A C `double` rank fraction as computed by the wrapper's evenly-spaced
loop: a finite value, or the non-finite results of dividing by zero
(`0.0/0` is NaN, `x/0` with `x > 0` is +Inf). -/
inductive CFrac where
  | val (q : ℚ)
  | nan
  | inf
deriving DecidableEq, Repr

/-- C floating-point division of `i` by `m` (both cast from integers):
NaN when `0/0`, +Inf when dividing a positive value by zero. -/
def cDivNat (i m : Nat) : CFrac :=
  if m = 0 then (if i = 0 then .nan else .inf) else .val ((i : ℚ) / (m : ℚ))

/-- Equality of `Except` results is decidable, so concrete runs of the
embedded functions can be checked by evaluation. -/
instance {ε α : Type} [DecidableEq ε] [DecidableEq α] : DecidableEq (Except ε α) :=
  fun a b =>
  match a, b with
  | .ok x, .ok y =>
    if h : x = y then .isTrue (congrArg Except.ok h)
    else .isFalse fun hc => h (Except.ok.inj hc)
  | .error x, .error y =>
    if h : x = y then .isTrue (congrArg Except.error h)
    else .isFalse fun hc => h (Except.error.inj hc)
  | .ok _, .error _ => .isFalse fun hc => Except.noConfusion hc
  | .error _, .ok _ => .isFalse fun hc => Except.noConfusion hc

namespace KllSketch

/-- Modelled from the spec: `get_quantile` on a C `double` fraction —
a non-finite fraction is not in the required range `[0,1]`, so it is
rejected with a range error, like any out-of-range fraction (§4.4, §7). -/
def get_quantile_c (s : KllSketch) (fraction : CFrac) : Except KllError Int :=
  match fraction with
  | .val q => s.get_quantile q
  | .nan => .error .rangeError
  | .inf => .error .rangeError

end KllSketch

/-!
## The C wrapper, float instantiation

Embedded from `src/libdatasketches_sys/wrapper.cpp`, lines 15–173.
A wrapper function without a `try`/`catch` around an engine call that can
throw has an `Except` return type: an `Except.error` result is the
engine's exception escaping through the `extern "C"` boundary.
-/

/-- `kll_float_sketch_new` (wrapper.cpp:15): allocate a default sketch;
any exception is caught and turned into a null handle. -/
def kll_float_sketch_new : Option KllSketch :=
  some KllSketch.new

/-- `kll_float_sketch_new_with_k` (wrapper.cpp:23): construct with an
explicit `k`; any exception is caught and turned into a null handle. -/
def kll_float_sketch_new_with_k (k : Nat) : Option KllSketch :=
  match KllSketch.newWithK k with
  | .ok s => some s
  | .error _ => none

/-- `kll_float_sketch_delete` (wrapper.cpp:31): free the sketch if the
handle is non-null; the result records whether a deallocation happened. -/
def kll_float_sketch_delete (sketch : Option KllSketch) : Bool :=
  match sketch with
  | some _ => true
  | none => false

/-- `kll_float_sketch_update` (wrapper.cpp:37): update through a
non-null handle, no-op on null. -/
def kll_float_sketch_update (sketch : Option KllSketch) (value : Int) : Option KllSketch :=
  match sketch with
  | some s => some (s.update value)
  | none => none

/-- `kll_float_sketch_merge` (wrapper.cpp:43): merge `other` into
`sketch` when both handles are non-null, no-op otherwise. -/
def kll_float_sketch_merge (sketch other : Option KllSketch) : Option KllSketch :=
  match sketch, other with
  | some s, some o => some (s.merge o)
  | _, _ => sketch

/-- `kll_float_sketch_is_empty` (wrapper.cpp:51): `true` on a null
handle. -/
def kll_float_sketch_is_empty (sketch : Option KllSketch) : Bool :=
  match sketch with
  | some s => s.is_empty
  | none => true

/-- `kll_float_sketch_get_k` (wrapper.cpp:58): `0` on a null handle. -/
def kll_float_sketch_get_k (sketch : Option KllSketch) : Nat :=
  match sketch with
  | some s => s.get_k
  | none => 0

/-- `kll_float_sketch_get_n` (wrapper.cpp:65): `0` on a null handle. -/
def kll_float_sketch_get_n (sketch : Option KllSketch) : Nat :=
  match sketch with
  | some s => s.get_n
  | none => 0

/-- `kll_float_sketch_get_num_retained` (wrapper.cpp:72): `0` on a null
handle. -/
def kll_float_sketch_get_num_retained (sketch : Option KllSketch) : Nat :=
  match sketch with
  | some s => s.get_num_retained
  | none => 0

/-- `kll_float_sketch_is_estimation_mode` (wrapper.cpp:79): `false` on a
null handle. -/
def kll_float_sketch_is_estimation_mode (sketch : Option KllSketch) : Bool :=
  match sketch with
  | some s => s.is_estimation_mode
  | none => false

/-- `kll_float_sketch_get_min_value` (wrapper.cpp:86): `0` on a null
handle; on a non-null handle the engine call is NOT wrapped in
`try`/`catch`, so an engine error escapes. -/
def kll_float_sketch_get_min_value (sketch : Option KllSketch) : Except KllError Int :=
  match sketch with
  | some s => s.get_min_item
  | none => .ok 0

/-- `kll_float_sketch_get_max_value` (wrapper.cpp:93): `0` on a null
handle; the engine call is NOT wrapped in `try`/`catch`. -/
def kll_float_sketch_get_max_value (sketch : Option KllSketch) : Except KllError Int :=
  match sketch with
  | some s => s.get_max_item
  | none => .ok 0

/-- `kll_float_sketch_get_quantile` (wrapper.cpp:100): `0` on a null
handle; the engine call is NOT wrapped in `try`/`catch`, so a range or
empty-sketch error escapes. -/
def kll_float_sketch_get_quantile (sketch : Option KllSketch) (fraction : ℚ) :
    Except KllError Int :=
  match sketch with
  | some s => s.get_quantile fraction
  | none => .ok 0

/-- `kll_float_sketch_get_rank` (wrapper.cpp:107): `0` on a null handle;
the engine call is NOT wrapped in `try`/`catch`. -/
def kll_float_sketch_get_rank (sketch : Option KllSketch) (value : Int) :
    Except KllError ℚ :=
  match sketch with
  | some s => s.get_rank value
  | none => .ok 0

/-- `kll_float_sketch_serialize` (wrapper.cpp:114): null result when the
handle or the out-parameter pointer is null; otherwise the serialized
bytes together with their size, any exception caught into null. -/
def kll_float_sketch_serialize (sketch : Option KllSketch) (sizePtrNonNull : Bool) :
    Option (List Int × Nat) :=
  match sketch, sizePtrNonNull with
  | some s, true => some (s.serialize, s.serialize.length)
  | _, _ => none

/-- `kll_float_sketch_deserialize` (wrapper.cpp:130): null result on a
null data pointer or zero size; any engine deserialization error is
caught into a null handle. -/
def kll_float_sketch_deserialize (data : Option (List Int)) : Option KllSketch :=
  match data with
  | some bytes =>
    if bytes.length = 0 then none
    else
      match KllSketch.deserialize bytes with
      | .ok s => some s
      | .error _ => none
  | none => none

/-- The batch loop of `kll_float_sketch_get_quantiles` (wrapper.cpp:151):
write `results[i] = get_quantile(fractions[i])` for `i` from the current
index while `fuel` iterations remain; an engine exception aborts the loop
(it is caught by the surrounding `catch`), leaving the remaining entries
unmodified. -/
def quantilesLoopF (s : KllSketch) (fractions : List ℚ) :
    Nat → Nat → List Int → List Int
  | _, 0, results => results
  | i, fuel + 1, results =>
    match fractions[i]? with
    | some f =>
      match s.get_quantile f with
      | .ok v => quantilesLoopF s fractions (i + 1) fuel (results.set i v)
      | .error _ => results
    | none => results

/-- `kll_float_sketch_get_quantiles` (wrapper.cpp:143): guard on null
handle, null arrays and `num_fractions == 0`, then run the batch loop
under a `catch (...)` that swallows any engine exception. -/
def kll_float_sketch_get_quantiles (sketch : Option KllSketch)
    (fractions : Option (List ℚ)) (num_fractions : Nat)
    (results : Option (List Int)) : Option (List Int) :=
  match sketch, fractions, results with
  | some s, some fracs, some res =>
    if num_fractions = 0 then some res
    else some (quantilesLoopF s fracs 0 num_fractions res)
  | _, _, _ => results

/-- The loop of `kll_float_sketch_get_quantiles_evenly_spaced`
(wrapper.cpp:166): write `results[i] = get_quantile(i / (num - 1))`,
the fraction computed by C floating-point division; an engine exception
aborts the loop, leaving the remaining entries unmodified. -/
def evenlyLoopF (s : KllSketch) (num : Nat) :
    Nat → Nat → List Int → List Int
  | _, 0, results => results
  | i, fuel + 1, results =>
    match s.get_quantile_c (cDivNat i (num - 1)) with
    | .ok v => evenlyLoopF s num (i + 1) fuel (results.set i v)
    | .error _ => results

/-- `kll_float_sketch_get_quantiles_evenly_spaced` (wrapper.cpp:159):
guard on null handle, null results and `num == 0`, then run the
evenly-spaced loop under a `catch (...)` that swallows any engine
exception. -/
def kll_float_sketch_get_quantiles_evenly_spaced (sketch : Option KllSketch)
    (num : Nat) (results : Option (List Int)) : Option (List Int) :=
  match sketch, results with
  | some s, some res =>
    if num = 0 then some res
    else some (evenlyLoopF s num 0 num res)
  | _, _ => results

/-!
## The C wrapper, double instantiation

Embedded from `src/libdatasketches_sys/wrapper.cpp`, lines 176–334.
The bodies mirror the float family line for line, the item type being
the only difference in the C source.
-/

/-- `kll_double_sketch_new` (wrapper.cpp:176). -/
def kll_double_sketch_new : Option KllSketch :=
  some KllSketch.new

/-- `kll_double_sketch_new_with_k` (wrapper.cpp:184). -/
def kll_double_sketch_new_with_k (k : Nat) : Option KllSketch :=
  match KllSketch.newWithK k with
  | .ok s => some s
  | .error _ => none

/-- `kll_double_sketch_delete` (wrapper.cpp:192). -/
def kll_double_sketch_delete (sketch : Option KllSketch) : Bool :=
  match sketch with
  | some _ => true
  | none => false

/-- `kll_double_sketch_update` (wrapper.cpp:198). -/
def kll_double_sketch_update (sketch : Option KllSketch) (value : Int) : Option KllSketch :=
  match sketch with
  | some s => some (s.update value)
  | none => none

/-- `kll_double_sketch_merge` (wrapper.cpp:204). -/
def kll_double_sketch_merge (sketch other : Option KllSketch) : Option KllSketch :=
  match sketch, other with
  | some s, some o => some (s.merge o)
  | _, _ => sketch

/-- `kll_double_sketch_is_empty` (wrapper.cpp:212). -/
def kll_double_sketch_is_empty (sketch : Option KllSketch) : Bool :=
  match sketch with
  | some s => s.is_empty
  | none => true

/-- `kll_double_sketch_get_k` (wrapper.cpp:219). -/
def kll_double_sketch_get_k (sketch : Option KllSketch) : Nat :=
  match sketch with
  | some s => s.get_k
  | none => 0

/-- `kll_double_sketch_get_n` (wrapper.cpp:226). -/
def kll_double_sketch_get_n (sketch : Option KllSketch) : Nat :=
  match sketch with
  | some s => s.get_n
  | none => 0

/-- `kll_double_sketch_get_num_retained` (wrapper.cpp:233). -/
def kll_double_sketch_get_num_retained (sketch : Option KllSketch) : Nat :=
  match sketch with
  | some s => s.get_num_retained
  | none => 0

/-- `kll_double_sketch_is_estimation_mode` (wrapper.cpp:240). -/
def kll_double_sketch_is_estimation_mode (sketch : Option KllSketch) : Bool :=
  match sketch with
  | some s => s.is_estimation_mode
  | none => false

/-- `kll_double_sketch_get_min_value` (wrapper.cpp:247): no
`try`/`catch` around the engine call. -/
def kll_double_sketch_get_min_value (sketch : Option KllSketch) : Except KllError Int :=
  match sketch with
  | some s => s.get_min_item
  | none => .ok 0

/-- `kll_double_sketch_get_max_value` (wrapper.cpp:254): no
`try`/`catch` around the engine call. -/
def kll_double_sketch_get_max_value (sketch : Option KllSketch) : Except KllError Int :=
  match sketch with
  | some s => s.get_max_item
  | none => .ok 0

/-- `kll_double_sketch_get_quantile` (wrapper.cpp:261): no `try`/`catch`
around the engine call. -/
def kll_double_sketch_get_quantile (sketch : Option KllSketch) (fraction : ℚ) :
    Except KllError Int :=
  match sketch with
  | some s => s.get_quantile fraction
  | none => .ok 0

/-- `kll_double_sketch_get_rank` (wrapper.cpp:268): no `try`/`catch`
around the engine call. -/
def kll_double_sketch_get_rank (sketch : Option KllSketch) (value : Int) :
    Except KllError ℚ :=
  match sketch with
  | some s => s.get_rank value
  | none => .ok 0

/-- `kll_double_sketch_serialize` (wrapper.cpp:275). -/
def kll_double_sketch_serialize (sketch : Option KllSketch) (sizePtrNonNull : Bool) :
    Option (List Int × Nat) :=
  match sketch, sizePtrNonNull with
  | some s, true => some (s.serialize, s.serialize.length)
  | _, _ => none

/-- `kll_double_sketch_deserialize` (wrapper.cpp:291). -/
def kll_double_sketch_deserialize (data : Option (List Int)) : Option KllSketch :=
  match data with
  | some bytes =>
    if bytes.length = 0 then none
    else
      match KllSketch.deserialize bytes with
      | .ok s => some s
      | .error _ => none
  | none => none

/-- The batch loop of `kll_double_sketch_get_quantiles`
(wrapper.cpp:312). -/
def quantilesLoopD (s : KllSketch) (fractions : List ℚ) :
    Nat → Nat → List Int → List Int
  | _, 0, results => results
  | i, fuel + 1, results =>
    match fractions[i]? with
    | some f =>
      match s.get_quantile f with
      | .ok v => quantilesLoopD s fractions (i + 1) fuel (results.set i v)
      | .error _ => results
    | none => results

/-- `kll_double_sketch_get_quantiles` (wrapper.cpp:304). -/
def kll_double_sketch_get_quantiles (sketch : Option KllSketch)
    (fractions : Option (List ℚ)) (num_fractions : Nat)
    (results : Option (List Int)) : Option (List Int) :=
  match sketch, fractions, results with
  | some s, some fracs, some res =>
    if num_fractions = 0 then some res
    else some (quantilesLoopD s fracs 0 num_fractions res)
  | _, _, _ => results

/-- The loop of `kll_double_sketch_get_quantiles_evenly_spaced`
(wrapper.cpp:327). -/
def evenlyLoopD (s : KllSketch) (num : Nat) :
    Nat → Nat → List Int → List Int
  | _, 0, results => results
  | i, fuel + 1, results =>
    match s.get_quantile_c (cDivNat i (num - 1)) with
    | .ok v => evenlyLoopD s num (i + 1) fuel (results.set i v)
    | .error _ => results

/-- `kll_double_sketch_get_quantiles_evenly_spaced` (wrapper.cpp:320). -/
def kll_double_sketch_get_quantiles_evenly_spaced (sketch : Option KllSketch)
    (num : Nat) (results : Option (List Int)) : Option (List Int) :=
  match sketch, results with
  | some s, some res =>
    if num = 0 then some res
    else some (evenlyLoopD s num 0 num res)
  | _, _ => results

/-!
## Concrete states used in closed statements
-/

/-- A concrete non-empty sketch: three items retained at level 0,
`n = 3`, extrema 1 and 9. -/
def skDemo : KllSketch := ⟨200, 3, [[5, 1, 9]], 1, 9, false⟩

/-- C1: every exported handle-accepting function, called with a null
handle, returns its defined default instead of crashing: mutators and
delete are no-ops, `is_empty` is true, numeric getters and queries
return 0, `is_estimation_mode` is false, `serialize` returns a null
pointer, and the batch query functions leave the results array
untouched — in both the float and the double instantiation. -/
theorem claim_C1_null_handle_defaults :
    (∀ v, kll_float_sketch_update none v = none) ∧
    (∀ o, kll_float_sketch_merge none o = none) ∧
    (∀ s, kll_float_sketch_merge s none = s) ∧
    kll_float_sketch_delete none = false ∧
    kll_float_sketch_is_empty none = true ∧
    kll_float_sketch_get_k none = 0 ∧
    kll_float_sketch_get_n none = 0 ∧
    kll_float_sketch_get_num_retained none = 0 ∧
    kll_float_sketch_is_estimation_mode none = false ∧
    kll_float_sketch_get_min_value none = .ok 0 ∧
    kll_float_sketch_get_max_value none = .ok 0 ∧
    (∀ f, kll_float_sketch_get_quantile none f = .ok 0) ∧
    (∀ v, kll_float_sketch_get_rank none v = .ok 0) ∧
    (∀ b, kll_float_sketch_serialize none b = none) ∧
    (∀ fr n res, kll_float_sketch_get_quantiles none fr n res = res) ∧
    (∀ n res, kll_float_sketch_get_quantiles_evenly_spaced none n res = res) ∧
    (∀ v, kll_double_sketch_update none v = none) ∧
    (∀ o, kll_double_sketch_merge none o = none) ∧
    (∀ s, kll_double_sketch_merge s none = s) ∧
    kll_double_sketch_delete none = false ∧
    kll_double_sketch_is_empty none = true ∧
    kll_double_sketch_get_k none = 0 ∧
    kll_double_sketch_get_n none = 0 ∧
    kll_double_sketch_get_num_retained none = 0 ∧
    kll_double_sketch_is_estimation_mode none = false ∧
    kll_double_sketch_get_min_value none = .ok 0 ∧
    kll_double_sketch_get_max_value none = .ok 0 ∧
    (∀ f, kll_double_sketch_get_quantile none f = .ok 0) ∧
    (∀ v, kll_double_sketch_get_rank none v = .ok 0) ∧
    (∀ b, kll_double_sketch_serialize none b = none) ∧
    (∀ fr n res, kll_double_sketch_get_quantiles none fr n res = res) ∧
    (∀ n res, kll_double_sketch_get_quantiles_evenly_spaced none n res = res) :=
  ⟨fun _ => rfl, fun o => by cases o <;> rfl, fun s => by cases s <;> rfl,
   rfl, rfl, rfl, rfl, rfl, rfl, rfl, rfl, fun _ => rfl, fun _ => rfl,
   fun b => by cases b <;> rfl,
   fun fr _ res => by cases fr <;> cases res <;> rfl,
   fun _ res => by cases res <;> rfl,
   fun _ => rfl, fun o => by cases o <;> rfl, fun s => by cases s <;> rfl,
   rfl, rfl, rfl, rfl, rfl, rfl, rfl, rfl, fun _ => rfl, fun _ => rfl,
   fun b => by cases b <;> rfl,
   fun fr _ res => by cases fr <;> cases res <;> rfl,
   fun _ res => by cases res <;> rfl⟩

/-- C2: contrary to the claim, the single-quantile wrapper performs no
conversion at the external boundary: called on a non-null handle with
fraction `3/2`, the engine's range error escapes through the wrapper
(the C function has no `try`/`catch`), in both instantiations — the
exception-like construct does cross the C boundary. -/
theorem claim_C2_range_error_escapes_boundary :
    kll_float_sketch_get_quantile (some skDemo) (3 / 2) = .error .rangeError ∧
    kll_double_sketch_get_quantile (some skDemo) (3 / 2) = .error .rangeError := by
  constructor <;>
    · simp only [kll_float_sketch_get_quantile, kll_double_sketch_get_quantile,
        KllSketch.get_quantile]
      norm_num

/-- C3: contrary to the claim, the min/max wrappers perform no
conversion at the external boundary: called on a non-null handle to an
empty sketch, the engine's empty-sketch error escapes through the
wrapper (the C function has no `try`/`catch`), in both instantiations. -/
theorem claim_C3_empty_error_escapes_boundary :
    kll_float_sketch_get_min_value (some KllSketch.new) = .error .emptySketch ∧
    kll_float_sketch_get_max_value (some KllSketch.new) = .error .emptySketch ∧
    kll_double_sketch_get_min_value (some KllSketch.new) = .error .emptySketch ∧
    kll_double_sketch_get_max_value (some KllSketch.new) = .error .emptySketch :=
  ⟨rfl, rfl, rfl, rfl⟩

/-- C8: constructing a sketch with an accuracy parameter `k` outside the
accepted bounds (below the minimum or above the fixed maximum) fails:
`new_with_k` returns a null handle, in both instantiations. -/
theorem claim_C8_invalid_k_fails (k : Nat)
    (h : k < KllSketch.MIN_K ∨ KllSketch.MAX_K < k) :
    kll_float_sketch_new_with_k k = none ∧ kll_double_sketch_new_with_k k = none := by
  constructor <;>
    simp only [kll_float_sketch_new_with_k, kll_double_sketch_new_with_k,
      KllSketch.newWithK, if_pos h]

/-- C8 witness: `k = 3` is below the minimum bound and construction
returns a null handle. -/
theorem claim_C8_invalid_k_fails_witness :
    kll_float_sketch_new_with_k 3 = none ∧ kll_double_sketch_new_with_k 3 = none :=
  claim_C8_invalid_k_fails 3 (Or.inl (by decide))

/-- The two batch loops are the same function. -/
theorem quantilesLoopD_eq_loopF (s : KllSketch) (fractions : List ℚ) :
    ∀ (fuel i : Nat) (res : List Int),
      quantilesLoopD s fractions i fuel res = quantilesLoopF s fractions i fuel res := by
  intro fuel
  induction fuel with
  | zero => intro i res; rfl
  | succ fuel ih =>
    intro i res
    cases h : fractions[i]? with
    | none => simp [quantilesLoopD, quantilesLoopF, h]
    | some f =>
      cases hq : s.get_quantile f with
      | ok v => simp [quantilesLoopD, quantilesLoopF, h, hq, ih]
      | error e => simp [quantilesLoopD, quantilesLoopF, h, hq]

/-- The two evenly-spaced loops are the same function. -/
theorem evenlyLoopD_eq_loopF (s : KllSketch) (num : Nat) :
    ∀ (fuel i : Nat) (res : List Int),
      evenlyLoopD s num i fuel res = evenlyLoopF s num i fuel res := by
  intro fuel
  induction fuel with
  | zero => intro i res; rfl
  | succ fuel ih =>
    intro i res
    cases hq : s.get_quantile_c (cDivNat i (num - 1)) with
    | ok v => simp [evenlyLoopD, evenlyLoopF, hq, ih]
    | error e => simp [evenlyLoopD, evenlyLoopF, hq]

/-- C9: the double-instantiated wrapper family is the float-instantiated
family up to the substitution of the item type (which the embedding
abstracts to a single numeric domain): every exported operation of the
two families is the same function. -/
theorem claim_C9_float_double_same_algorithm :
    kll_double_sketch_new = kll_float_sketch_new ∧
    kll_double_sketch_new_with_k = kll_float_sketch_new_with_k ∧
    kll_double_sketch_delete = kll_float_sketch_delete ∧
    kll_double_sketch_update = kll_float_sketch_update ∧
    kll_double_sketch_merge = kll_float_sketch_merge ∧
    kll_double_sketch_is_empty = kll_float_sketch_is_empty ∧
    kll_double_sketch_get_k = kll_float_sketch_get_k ∧
    kll_double_sketch_get_n = kll_float_sketch_get_n ∧
    kll_double_sketch_get_num_retained = kll_float_sketch_get_num_retained ∧
    kll_double_sketch_is_estimation_mode = kll_float_sketch_is_estimation_mode ∧
    kll_double_sketch_get_min_value = kll_float_sketch_get_min_value ∧
    kll_double_sketch_get_max_value = kll_float_sketch_get_max_value ∧
    kll_double_sketch_get_quantile = kll_float_sketch_get_quantile ∧
    kll_double_sketch_get_rank = kll_float_sketch_get_rank ∧
    kll_double_sketch_serialize = kll_float_sketch_serialize ∧
    kll_double_sketch_deserialize = kll_float_sketch_deserialize ∧
    kll_double_sketch_get_quantiles = kll_float_sketch_get_quantiles ∧
    kll_double_sketch_get_quantiles_evenly_spaced =
      kll_float_sketch_get_quantiles_evenly_spaced := by
  refine ⟨rfl, rfl, rfl, rfl, rfl, rfl, rfl, rfl, rfl, rfl, rfl, rfl, rfl, rfl, rfl, rfl,
    ?_, ?_⟩
  · funext sk fr n res
    cases sk <;> cases fr <;> cases res <;>
      simp only [kll_double_sketch_get_quantiles, kll_float_sketch_get_quantiles,
        quantilesLoopD_eq_loopF]
  · funext sk n res
    cases sk <;> cases res <;>
      simp only [kll_double_sketch_get_quantiles_evenly_spaced,
        kll_float_sketch_get_quantiles_evenly_spaced, evenlyLoopD_eq_loopF]

/-- Splitting the flattened payload along the stored level lengths
recovers the levels. -/
theorem splitByCounts_flatten (ls : List (List Int)) :
    KllSketch.splitByCounts (ls.map List.length) ls.flatten = ls := by
  induction ls with
  | nil => rfl
  | cons l t ih =>
    simp only [List.map_cons, List.flatten_cons, KllSketch.splitByCounts]
    rw [List.take_left, List.drop_left, ih]

/-- Decoding an encoded sketch succeeds and reconstructs the sketch
exactly, for any sketch whose accuracy parameter is within the accepted
bounds. -/
theorem deserialize_serialize (s : KllSketch)
    (hmin : KllSketch.MIN_K ≤ s.k) (hmax : s.k ≤ KllSketch.MAX_K) :
    KllSketch.deserialize s.serialize = Except.ok s := by
  have hmapnat : List.map Int.toNat (List.map (fun l => ((l.length : Int))) s.levels) =
      List.map List.length s.levels := by
    rw [List.map_map]
    exact List.map_congr_left fun l hl => Int.toNat_natCast _
  have hlen1 : (List.map (fun l => ((l.length : Int))) s.levels).length = s.levels.length := by
    simp
  have hkcast : ¬((s.k : Int) < (KllSketch.MIN_K : Int) ∨
      (KllSketch.MAX_K : Int) < (s.k : Int)) := by
    rw [not_or]
    exact ⟨not_lt.2 (by exact_mod_cast hmin), not_lt.2 (by exact_mod_cast hmax)⟩
  have hn : ¬((s.n : Int) < 0) := not_lt.2 (Int.natCast_nonneg _)
  have h4 : ¬((s.levels.length : Int) < 0 ∨
      ((List.map (fun l => ((l.length : Int))) s.levels ++ s.levels.flatten).length : Int) <
        (s.levels.length : Int)) := by
    push_neg
    refine ⟨Int.natCast_nonneg _, ?_⟩
    have h : s.levels.length ≤
        (List.map (fun l => ((l.length : Int))) s.levels ++ s.levels.flatten).length := by
      simp [List.length_append]
    exact_mod_cast h
  have h5 : ¬((List.map (fun l => ((l.length : Int))) s.levels).any
      (fun c => decide (c < 0)) = true) := by
    intro h
    rw [List.any_eq_true] at h
    obtain ⟨c, hc, hlt⟩ := h
    obtain ⟨l, hl, rfl⟩ := List.mem_map.1 hc
    rw [decide_eq_true_eq] at hlt
    omega
  have h6 : ¬(s.levels.flatten.length ≠
      (List.map Int.toNat (List.map (fun l => ((l.length : Int))) s.levels)).sum) := by
    rw [hmapnat, List.length_flatten]
    simp
  have h7 : ¬(s.flagsByte ≠ ((if (s.n : Int) = 0 then 1 else 0) +
        if (s.n : Int) = 1 then 2 else 0) ∧
      s.flagsByte ≠ ((if (s.n : Int) = 0 then 1 else 0) +
        (if (s.n : Int) = 1 then 2 else 0)) + 4) := by
    rw [not_and_or]
    cases hs : s.is_level_zero_sorted
    · exact Or.inl (by simp [KllSketch.flagsByte, hs, Nat.cast_eq_zero, Nat.cast_eq_one])
    · exact Or.inr (by simp [KllSketch.flagsByte, hs, Nat.cast_eq_zero, Nat.cast_eq_one])
  have hdec : decide (4 ≤ s.flagsByte) = s.is_level_zero_sorted := by
    cases hs : s.is_level_zero_sorted <;> simp [KllSketch.flagsByte, hs] <;>
      split_ifs <;> norm_num
  simp only [KllSketch.serialize, KllSketch.deserialize]
  rw [if_neg (by simp), if_neg hkcast, if_neg hn, if_neg h4]
  simp only [Int.toNat_natCast]
  rw [List.take_left' hlen1, List.drop_left' hlen1]
  rw [if_neg h5, if_neg h6, if_neg h7]
  rw [hmapnat, splitByCounts_flatten, hdec]

/-- Any byte sequence shorter than the fixed header fails to decode. -/
theorem deserialize_short (l : List Int) (h : l.length < 7) :
    KllSketch.deserialize l = .error .deserialization := by
  match l, h with
  | [], _ => rfl
  | [a], _ => rfl
  | [a, b], _ => rfl
  | [a, b, c], _ => rfl
  | [a, b, c, d], _ => rfl
  | [a, b, c, d, e], _ => rfl
  | [a, b, c, d, e, f], _ => rfl
  | a :: b :: c :: d :: e :: f :: g :: t, h => simp only [List.length_cons] at h; omega

/-- Any byte sequence whose leading format-version tag is not the
supported one fails to decode. -/
theorem deserialize_bad_version (bytes : List Int) (v : Int)
    (hv : bytes.head? = some v) (hne : v ≠ KllSketch.FORMAT_VERSION) :
    KllSketch.deserialize bytes = .error .deserialization := by
  rcases bytes with _ | ⟨b, t⟩
  · cases hv
  have hb : b = v := by simpa using hv
  subst hb
  rcases t with _ | ⟨c, t⟩
  · exact deserialize_short _ (by simp)
  rcases t with _ | ⟨d, t⟩
  · exact deserialize_short _ (by simp)
  rcases t with _ | ⟨e, t⟩
  · exact deserialize_short _ (by simp)
  rcases t with _ | ⟨f, t⟩
  · exact deserialize_short _ (by simp)
  rcases t with _ | ⟨g, t⟩
  · exact deserialize_short _ (by simp)
  rcases t with _ | ⟨x, t⟩
  · exact deserialize_short _ (by simp)
  simp only [KllSketch.deserialize]
  rw [if_pos hne]

/-- Every strict prefix of a valid serialization fails to decode: the
header declares the level counts, and a truncated payload can no longer
match them (or the header itself is incomplete). -/
theorem deserialize_take (s : KllSketch) (m : Nat) (hm : m < s.serialize.length) :
    KllSketch.deserialize (s.serialize.take m) = .error .deserialization := by
  have hlen1 : (List.map (fun l => ((l.length : Int))) s.levels).length = s.levels.length := by
    simp
  have hmapnat : List.map Int.toNat (List.map (fun l => ((l.length : Int))) s.levels) =
      List.map List.length s.levels := by
    rw [List.map_map]
    exact List.map_congr_left fun l hl => Int.toNat_natCast _
  have hslen : s.serialize.length =
      7 + (s.levels.length + s.levels.flatten.length) := by
    simp [KllSketch.serialize, List.length_append]
    omega
  rcases Nat.lt_or_ge m 7 with h7 | h7
  · apply deserialize_short
    rw [List.length_take]
    omega
  · obtain ⟨m', rfl⟩ : ∃ m', m = m' + 7 := ⟨m - 7, by omega⟩
    have hm' : m' < s.levels.length + s.levels.flatten.length := by omega
    have hred : s.serialize.take (m' + 7) =
        KllSketch.FORMAT_VERSION :: (s.k : Int) :: (s.n : Int) :: s.flagsByte ::
          s.min_item :: s.max_item :: (s.levels.length : Int) ::
          (List.map (fun l => ((l.length : Int))) s.levels ++ s.levels.flatten).take m' := by
      rfl
    rw [hred]
    simp only [KllSketch.deserialize]
    rw [if_neg (by simp)]
    by_cases hkv : (s.k : Int) < (KllSketch.MIN_K : Int) ∨ (KllSketch.MAX_K : Int) < (s.k : Int)
    · rw [if_pos hkv]
    rw [if_neg hkv, if_neg (not_lt.2 (Int.natCast_nonneg _))]
    have htlen : ((List.map (fun l => ((l.length : Int))) s.levels ++
        s.levels.flatten).take m').length = m' := by
      rw [List.length_take, List.length_append, hlen1]
      omega
    by_cases hLm : m' < s.levels.length
    · rw [if_pos]
      right
      rw [htlen]
      exact_mod_cast hLm
    · rw [if_neg]
      swap
      · push_neg
        refine ⟨Int.natCast_nonneg _, ?_⟩
        rw [htlen]
        exact_mod_cast Nat.le_of_not_lt hLm
      simp only [Int.toNat_natCast]
      rw [List.take_take]
      have hmin : s.levels.length ⊓ m' = s.levels.length :=
        min_eq_left (Nat.le_of_not_lt hLm)
      rw [hmin, List.take_left' hlen1, List.drop_take, List.drop_left' hlen1]
      rw [if_neg (show ¬((List.map (fun l => ((l.length : Int))) s.levels).any
          (fun c => decide (c < 0)) = true) by
        intro h
        rw [List.any_eq_true] at h
        obtain ⟨c, hc, hlt⟩ := h
        obtain ⟨l, hl, rfl⟩ := List.mem_map.1 hc
        rw [decide_eq_true_eq] at hlt
        omega)]
      rw [if_pos]
      rw [hmapnat, List.length_take]
      have hsum : (List.map List.length s.levels).sum = s.levels.flatten.length :=
        (List.length_flatten s.levels).symm
      rw [hsum]
      omega

/-- C6: `deserialize` fails with a malformed-input error, surfaced at
the boundary as a null handle, on a null data pointer, a zero size, any
truncated prefix of a valid serialization, any unsupported
format-version tag, and internally inconsistent counts (shown at a
concrete input whose declared level size exceeds its payload); every
engine-level deserialization error becomes a null handle, so a corrupted
sketch is never silently constructed. -/
theorem claim_C6_deserialize_rejects_malformed :
    kll_float_sketch_deserialize none = none ∧
    kll_double_sketch_deserialize none = none ∧
    kll_float_sketch_deserialize (some []) = none ∧
    kll_double_sketch_deserialize (some []) = none ∧
    (∀ (s : KllSketch) (m : Nat), m < s.serialize.length →
      kll_float_sketch_deserialize (some (s.serialize.take m)) = none) ∧
    (∀ (bytes : List Int) (v : Int), bytes.head? = some v →
      v ≠ KllSketch.FORMAT_VERSION → kll_float_sketch_deserialize (some bytes) = none) ∧
    KllSketch.deserialize
      [KllSketch.FORMAT_VERSION, 200, 3, 0, 1, 9, 1, 3, 5, 1] = .error .deserialization ∧
    (∀ (bytes : List Int) (e : KllError), KllSketch.deserialize bytes = .error e →
      kll_float_sketch_deserialize (some bytes) = none) ∧
    (∀ (bytes : List Int) (e : KllError), KllSketch.deserialize bytes = .error e →
      kll_double_sketch_deserialize (some bytes) = none) := by
  refine ⟨rfl, rfl, rfl, rfl, ?_, ?_, rfl, ?_, ?_⟩
  · intro s m hm
    have he := deserialize_take s m hm
    by_cases h0 : (s.serialize.take m).length = 0
    · simp [kll_float_sketch_deserialize, h0]
    · simp [kll_float_sketch_deserialize, h0, he]
  · intro bytes v hv hne
    have he := deserialize_bad_version bytes v hv hne
    by_cases h0 : bytes.length = 0
    · simp [kll_float_sketch_deserialize, h0]
    · simp [kll_float_sketch_deserialize, h0, he]
  · intro bytes e he
    by_cases h0 : bytes.length = 0
    · simp [kll_float_sketch_deserialize, h0]
    · simp [kll_float_sketch_deserialize, h0, he]
  · intro bytes e he
    by_cases h0 : bytes.length = 0
    · simp [kll_double_sketch_deserialize, h0]
    · simp [kll_double_sketch_deserialize, h0, he]

/-- C6 witness: the first 3 bytes of a valid serialization are rejected
with a null handle. -/
theorem claim_C6_witness :
    kll_float_sketch_deserialize (some (skDemo.serialize.take 3)) = none :=
  claim_C6_deserialize_rejects_malformed.2.2.2.2.1 skDemo 3 (by decide)

/-- C7: deserializing the bytes produced by `serialize` yields a sketch
whose observable state is identical: `get_k`, `get_n`, min, max, and
every rank and quantile query agree with the original sketch. -/
theorem claim_C7_roundtrip (s : KllSketch)
    (hmin : KllSketch.MIN_K ≤ s.k) (hmax : s.k ≤ KllSketch.MAX_K) :
    ∃ s' : KllSketch,
      kll_float_sketch_deserialize (some s.serialize) = some s' ∧
      s'.get_k = s.get_k ∧
      s'.get_n = s.get_n ∧
      s'.get_min_item = s.get_min_item ∧
      s'.get_max_item = s.get_max_item ∧
      (∀ f : ℚ, s'.get_quantile f = s.get_quantile f) ∧
      (∀ v : Int, s'.get_rank v = s.get_rank v) ∧
      kll_float_sketch_serialize (some s) true = some (s.serialize, s.serialize.length) := by
  refine ⟨s, ?_, rfl, rfl, rfl, rfl, fun _ => rfl, fun _ => rfl, rfl⟩
  have he := deserialize_serialize s hmin hmax
  have hlen : ¬(s.serialize.length = 0) := by
    simp [KllSketch.serialize]
  simp [kll_float_sketch_deserialize, hlen, he]

/-- C7 witness: the round trip at a concrete three-item sketch. -/
theorem claim_C7_roundtrip_witness :
    ∃ s' : KllSketch,
      kll_float_sketch_deserialize (some skDemo.serialize) = some s' ∧
      s'.get_k = skDemo.get_k ∧
      s'.get_n = skDemo.get_n ∧
      s'.get_min_item = skDemo.get_min_item ∧
      s'.get_max_item = skDemo.get_max_item ∧
      (∀ f : ℚ, s'.get_quantile f = skDemo.get_quantile f) ∧
      (∀ v : Int, s'.get_rank v = skDemo.get_rank v) ∧
      kll_float_sketch_serialize (some skDemo) true =
        some (skDemo.serialize, skDemo.serialize.length) :=
  claim_C7_roundtrip skDemo (by decide) (by decide)

/-- When every quantile call of the batch loop succeeds, the loop writes
each computed value at its index and leaves every other entry untouched. -/
theorem quantilesLoopF_all_ok (s : KllSketch) (fracs : List ℚ) :
    ∀ (fuel i : Nat) (res : List Int),
      (∀ j, i ≤ j → j < i + fuel →
        ∃ f v, fracs[j]? = some f ∧ s.get_quantile f = .ok v) →
      ((∀ j, j < i ∨ i + fuel ≤ j → (quantilesLoopF s fracs i fuel res)[j]? = res[j]?) ∧
       (∀ j, i ≤ j → j < i + fuel → j < res.length →
         ∃ f v, fracs[j]? = some f ∧ s.get_quantile f = .ok v ∧
           (quantilesLoopF s fracs i fuel res)[j]? = some v)) := by
  intro fuel
  induction fuel with
  | zero =>
    intro i res hok
    exact ⟨fun j hj => rfl, fun j hj1 hj2 _ => absurd hj2 (by omega)⟩
  | succ fuel ih =>
    intro i res hok
    obtain ⟨f, v, hf, hv⟩ := hok i (le_refl i) (by omega)
    have hstep : quantilesLoopF s fracs i (fuel + 1) res =
        quantilesLoopF s fracs (i + 1) fuel (res.set i v) := by
      simp [quantilesLoopF, hf, hv]
    have ihr := ih (i + 1) (res.set i v) (fun j hj1 hj2 => hok j (by omega) (by omega))
    constructor
    · intro j hj
      rw [hstep, ihr.1 j (by omega)]
      exact List.getElem?_set_ne (by omega)
    · intro j hj1 hj2 hlen
      rcases Nat.eq_or_lt_of_le hj1 with rfl | hlt
      · refine ⟨f, v, hf, hv, ?_⟩
        rw [hstep, ihr.1 i (by omega), List.getElem?_set_self hlen]
      · have h := ihr.2 j (by omega) (by omega) (by rwa [List.length_set])
        rwa [hstep]

/-- When the batch loop's quantile call fails at some index after
succeeding at every earlier one, the loop keeps the computed values
before the failing index and leaves entries at and after it untouched. -/
theorem quantilesLoopF_abort (s : KllSketch) (fracs : List ℚ) :
    ∀ (fuel i : Nat) (res : List Int) (jf : Nat),
      i ≤ jf → jf < i + fuel →
      (∀ j, i ≤ j → j < jf →
        ∃ f v, fracs[j]? = some f ∧ s.get_quantile f = .ok v) →
      (∃ f e, fracs[jf]? = some f ∧ s.get_quantile f = .error e) →
      ((∀ j, j < i ∨ jf ≤ j → (quantilesLoopF s fracs i fuel res)[j]? = res[j]?) ∧
       (∀ j, i ≤ j → j < jf → j < res.length →
         ∃ f v, fracs[j]? = some f ∧ s.get_quantile f = .ok v ∧
           (quantilesLoopF s fracs i fuel res)[j]? = some v)) := by
  intro fuel
  induction fuel with
  | zero =>
    intro i res jf h1 h2 _ _
    omega
  | succ fuel ih =>
    intro i res jf h1 h2 hok hfail
    rcases Nat.eq_or_lt_of_le h1 with rfl | hlt
    · obtain ⟨f, e, hf, he⟩ := hfail
      have hstep : quantilesLoopF s fracs i (fuel + 1) res = res := by
        simp [quantilesLoopF, hf, he]
      rw [hstep]
      exact ⟨fun j hj => rfl, fun j hj1 hj2 _ => absurd hj2 (by omega)⟩
    · obtain ⟨f, v, hf, hv⟩ := hok i (le_refl i) hlt
      have hstep : quantilesLoopF s fracs i (fuel + 1) res =
          quantilesLoopF s fracs (i + 1) fuel (res.set i v) := by
        simp [quantilesLoopF, hf, hv]
      have ihr := ih (i + 1) (res.set i v) jf (by omega) (by omega)
        (fun j hj1 hj2 => hok j (by omega) hj2) hfail
      constructor
      · intro j hj
        rw [hstep, ihr.1 j (by omega)]
        exact List.getElem?_set_ne (by omega)
      · intro j hj1 hj2 hlen
        rcases Nat.eq_or_lt_of_le hj1 with rfl | hlt2
        · refine ⟨f, v, hf, hv, ?_⟩
          rw [hstep, ihr.1 i (Or.inl (by omega)), List.getElem?_set_self hlen]
        · have h := ihr.2 j (by omega) hj2 (by rwa [List.length_set])
          rwa [hstep]

/-- When every quantile call of the evenly-spaced loop succeeds, the
loop writes each computed value at its index and leaves every other
entry untouched. -/
theorem evenlyLoopF_all_ok (s : KllSketch) (num : Nat) :
    ∀ (fuel i : Nat) (res : List Int),
      (∀ j, i ≤ j → j < i + fuel →
        ∃ v, s.get_quantile_c (cDivNat j (num - 1)) = .ok v) →
      ((∀ j, j < i ∨ i + fuel ≤ j → (evenlyLoopF s num i fuel res)[j]? = res[j]?) ∧
       (∀ j, i ≤ j → j < i + fuel → j < res.length →
         ∃ v, s.get_quantile_c (cDivNat j (num - 1)) = .ok v ∧
           (evenlyLoopF s num i fuel res)[j]? = some v)) := by
  intro fuel
  induction fuel with
  | zero =>
    intro i res hok
    exact ⟨fun j hj => rfl, fun j hj1 hj2 _ => absurd hj2 (by omega)⟩
  | succ fuel ih =>
    intro i res hok
    obtain ⟨v, hv⟩ := hok i (le_refl i) (by omega)
    have hstep : evenlyLoopF s num i (fuel + 1) res =
        evenlyLoopF s num (i + 1) fuel (res.set i v) := by
      simp [evenlyLoopF, hv]
    have ihr := ih (i + 1) (res.set i v) (fun j hj1 hj2 => hok j (by omega) (by omega))
    constructor
    · intro j hj
      rw [hstep, ihr.1 j (by omega)]
      exact List.getElem?_set_ne (by omega)
    · intro j hj1 hj2 hlen
      rcases Nat.eq_or_lt_of_le hj1 with rfl | hlt
      · refine ⟨v, hv, ?_⟩
        rw [hstep, ihr.1 i (by omega), List.getElem?_set_self hlen]
      · have h := ihr.2 j (by omega) (by omega) (by rwa [List.length_set])
        rwa [hstep]

/-- When the evenly-spaced loop's first quantile call fails, the loop
leaves the result buffer untouched. -/
theorem evenlyLoopF_abort0 (s : KllSketch) (num fuel : Nat) (res : List Int) (e : KllError)
    (he : s.get_quantile_c (cDivNat 0 (num - 1)) = .error e) (hfuel : fuel ≠ 0) :
    evenlyLoopF s num 0 fuel res = res := by
  obtain ⟨fuel', rfl⟩ : ∃ f, fuel = f + 1 := ⟨fuel - 1, by omega⟩
  simp [evenlyLoopF, he]

/-- For `num ≥ 2` the evenly-spaced fraction `j/(num-1)` is a finite
value in `[0,1]`, so the quantile query on a non-empty sketch succeeds. -/
theorem get_quantile_c_evenly_ok (s : KllSketch) (num j : Nat)
    (hs : s.n ≠ 0) (h2 : 2 ≤ num) (hj : j < num) :
    cDivNat j (num - 1) = CFrac.val ((j : ℚ) / ((num - 1 : Nat) : ℚ)) ∧
    ∃ v, s.get_quantile_c (cDivNat j (num - 1)) = .ok v := by
  have hd : ¬(num - 1 = 0) := by omega
  have hcd : cDivNat j (num - 1) = CFrac.val ((j : ℚ) / ((num - 1 : Nat) : ℚ)) := by
    simp [cDivNat, hd]
  have hpos : (0 : ℚ) < ((num - 1 : Nat) : ℚ) := by
    exact_mod_cast Nat.pos_of_ne_zero hd
  have hq : ¬((((j : ℚ)) / ((num - 1 : Nat) : ℚ)) < 0 ∨
      1 < (((j : ℚ)) / ((num - 1 : Nat) : ℚ))) := by
    push_neg
    constructor
    · positivity
    · rw [div_le_one hpos]
      exact_mod_cast (by omega : j ≤ num - 1)
  refine ⟨hcd, ?_⟩
  rw [hcd]
  simp only [KllSketch.get_quantile_c, KllSketch.get_quantile, if_neg hq, if_neg hs]
  exact ⟨_, rfl⟩

/-- C4 (amended): for a non-null handle to a non-empty sketch and
`num ≥ 2`, `get_quantiles_evenly_spaced` writes
`results[i] = get_quantile(i/(num-1))` for every `i < num` and leaves
later entries untouched; for `num = 0` the call is an explicit no-op;
for `num = 1` the loop computes the undefined fraction `0.0/0` (NaN),
the engine rejects it, the wrapper swallows the error, and the call
returns normally leaving the results untouched. -/
theorem claim_C4_amended_evenly_spaced (s : KllSketch) (num : Nat) (res : List Int)
    (hs : s.n ≠ 0) (h2 : 2 ≤ num) (hres : num ≤ res.length) :
    (∃ res',
      kll_float_sketch_get_quantiles_evenly_spaced (some s) num (some res) = some res' ∧
      (∀ j, j < num →
        ∃ v, cDivNat j (num - 1) = CFrac.val ((j : ℚ) / ((num - 1 : Nat) : ℚ)) ∧
          s.get_quantile ((j : ℚ) / ((num - 1 : Nat) : ℚ)) = .ok v ∧
          res'[j]? = some v) ∧
      (∀ j, num ≤ j → res'[j]? = res[j]?)) ∧
    (∀ r : List Int,
      kll_float_sketch_get_quantiles_evenly_spaced (some s) 0 (some r) = some r) ∧
    (cDivNat 0 (1 - 1) = CFrac.nan ∧
      ∀ r : List Int,
        kll_float_sketch_get_quantiles_evenly_spaced (some s) 1 (some r) = some r) := by
  refine ⟨?_, fun r => rfl, rfl, fun r => ?_⟩
  · have hok : ∀ j, 0 ≤ j → j < 0 + num →
        ∃ v, s.get_quantile_c (cDivNat j (num - 1)) = .ok v := by
      intro j _ hj
      exact (get_quantile_c_evenly_ok s num j hs h2 (by omega)).2
    have hmain := evenlyLoopF_all_ok s num num 0 res hok
    refine ⟨evenlyLoopF s num 0 num res, ?_, ?_, ?_⟩
    · simp [kll_float_sketch_get_quantiles_evenly_spaced, (show ¬(num = 0) by omega)]
    · intro j hj
      obtain ⟨hcd, -⟩ := get_quantile_c_evenly_ok s num j hs h2 hj
      obtain ⟨v', hv', hr⟩ := hmain.2 j (by omega) (by omega) (by omega)
      refine ⟨v', hcd, ?_, hr⟩
      rw [hcd] at hv'
      exact hv'
    · intro j hj
      exact hmain.1 j (Or.inr (by omega))
  · have he : s.get_quantile_c (cDivNat 0 (1 - 1)) = .error .rangeError := rfl
    simp [kll_float_sketch_get_quantiles_evenly_spaced,
      evenlyLoopF_abort0 s 1 1 r .rangeError he (by omega)]

/-- C4 counterexample: at `num = 1` the loop's only fraction is the
undefined `0.0/0` (NaN) — silently produced, passed to the engine, and
the call neither fails nor reports anything: it returns normally with
the results array untouched, in both instantiations.  This violates the
claim that a `num` of 0 or 1 must fail or avoid producing an undefined
fraction. -/
theorem claim_C4_counterexample :
    cDivNat 0 (1 - 1) = CFrac.nan ∧
    KllSketch.get_quantile_c skDemo (cDivNat 0 (1 - 1)) = .error .rangeError ∧
    kll_float_sketch_get_quantiles_evenly_spaced (some skDemo) 1 (some [77]) = some [77] ∧
    kll_double_sketch_get_quantiles_evenly_spaced (some skDemo) 1 (some [77]) = some [77] :=
  ⟨rfl, rfl, rfl, rfl⟩

/-- C4 witness: the amended statement at a concrete sketch with
`num = 3`. -/
theorem claim_C4_amended_witness :
    (∃ res',
      kll_float_sketch_get_quantiles_evenly_spaced (some skDemo) 3 (some [0, 0, 0]) =
        some res' ∧
      (∀ j, j < 3 →
        ∃ v, cDivNat j (3 - 1) = CFrac.val ((j : ℚ) / ((3 - 1 : Nat) : ℚ)) ∧
          skDemo.get_quantile ((j : ℚ) / ((3 - 1 : Nat) : ℚ)) = .ok v ∧
          res'[j]? = some v) ∧
      (∀ j, 3 ≤ j → res'[j]? = ([0, 0, 0] : List Int)[j]?)) ∧
    (∀ r : List Int,
      kll_float_sketch_get_quantiles_evenly_spaced (some skDemo) 0 (some r) = some r) ∧
    (cDivNat 0 (1 - 1) = CFrac.nan ∧
      ∀ r : List Int,
        kll_float_sketch_get_quantiles_evenly_spaced (some skDemo) 1 (some r) = some r) :=
  claim_C4_amended_evenly_spaced skDemo 3 [0, 0, 0] (by decide) (by decide) (by decide)

/-- C5: whenever each single-quantile call returns a value, the batch
`get_quantiles` writes exactly that value at each index below
`num_fractions` and leaves later entries untouched — the batch variant
is a pure convenience over repeated single-quantile calls. -/
theorem claim_C5_batch_matches_single (s : KllSketch) (fracs : List ℚ) (num : Nat)
    (res : List Int) (hnum : 0 < num) (hlen : num ≤ fracs.length) (hres : num ≤ res.length)
    (hok : ∀ j (hj : j < fracs.length), ∃ v,
      kll_float_sketch_get_quantile (some s) fracs[j] = Except.ok v) :
    ∃ res',
      kll_float_sketch_get_quantiles (some s) (some fracs) num (some res) = some res' ∧
      (∀ j (hj : j < fracs.length), j < num →
        ∃ v, kll_float_sketch_get_quantile (some s) fracs[j] = Except.ok v ∧
          res'[j]? = some v) ∧
      (∀ j, num ≤ j → res'[j]? = res[j]?) := by
  have hok' : ∀ j, 0 ≤ j → j < 0 + num →
      ∃ f v, fracs[j]? = some f ∧ s.get_quantile f = .ok v := by
    intro j _ hj
    have hjl : j < fracs.length := by omega
    obtain ⟨v, hv⟩ := hok j hjl
    exact ⟨fracs[j], v, List.getElem?_eq_getElem hjl, hv⟩
  have hmain := quantilesLoopF_all_ok s fracs num 0 res hok'
  refine ⟨quantilesLoopF s fracs 0 num res, ?_, ?_, ?_⟩
  · simp [kll_float_sketch_get_quantiles, (show ¬(num = 0) by omega)]
  · intro j hjl hj
    obtain ⟨f, v, hf, hv, hr⟩ := hmain.2 j (by omega) (by omega) (by omega)
    rw [List.getElem?_eq_getElem hjl] at hf
    obtain rfl : f = fracs[j] := (Option.some.inj hf).symm
    exact ⟨v, hv, hr⟩
  · intro j hj
    exact hmain.1 j (Or.inr (by omega))

/-- C5 witness: the batch call at a concrete sketch and the fractions
0, 1/2, 1 produces the three single-call values. -/
theorem claim_C5_batch_matches_single_witness :
    ∃ res',
      kll_float_sketch_get_quantiles (some skDemo) (some [0, 1/2, 1]) 3 (some [0, 0, 0]) =
        some res' ∧
      (∀ j (hj : j < ([0, 1/2, 1] : List ℚ).length), j < 3 →
        ∃ v, kll_float_sketch_get_quantile (some skDemo)
          (([0, 1/2, 1] : List ℚ)[j]) = Except.ok v ∧
          res'[j]? = some v) ∧
      (∀ j, 3 ≤ j → res'[j]? = ([0, 0, 0] : List Int)[j]?) :=
  claim_C5_batch_matches_single skDemo [0, 1/2, 1] 3 [0, 0, 0]
    (by norm_num) (by norm_num) (by norm_num)
    (by
      intro j hj
      simp only [List.length_cons, List.length_nil] at hj
      interval_cases j <;> simp only [List.getElem_cons_zero, List.getElem_cons_succ]
      · exact ⟨1, by
          norm_num [kll_float_sketch_get_quantile, KllSketch.get_quantile, skDemo,
            KllSketch.weightedItems, KllSketch.weightedLevels, KllSketch.sortWeighted,
            KllSketch.insertWeighted, KllSketch.cumSearch]⟩
      · exact ⟨5, by
          norm_num [kll_float_sketch_get_quantile, KllSketch.get_quantile, skDemo,
            KllSketch.weightedItems, KllSketch.weightedLevels, KllSketch.sortWeighted,
            KllSketch.insertWeighted, KllSketch.cumSearch]⟩
      · exact ⟨9, by
          norm_num [kll_float_sketch_get_quantile, KllSketch.get_quantile, skDemo,
            KllSketch.weightedItems, KllSketch.weightedLevels, KllSketch.sortWeighted,
            KllSketch.insertWeighted, KllSketch.cumSearch]⟩)

/-- C10: when a quantile call fails mid-loop, the batch wrappers swallow
the exception and return normally: entries before the failing index keep
their computed values, entries at and after it are untouched, and the
void return carries no failure indication; the evenly-spaced wrapper
behaves the same on an empty sketch (its first call fails), returning
with the results array untouched. -/
theorem claim_C10_batch_swallows_failure (s : KllSketch) (fracs : List ℚ) (num jf : Nat)
    (res : List Int) (hnum : num ≠ 0) (hjf : jf < num) (hjl : jf < fracs.length)
    (hfail : ∃ e, s.get_quantile fracs[jf] = .error e)
    (hok : ∀ j (hj : j < fracs.length), j < jf → ∃ v, s.get_quantile fracs[j] = .ok v) :
    ∃ res',
      kll_float_sketch_get_quantiles (some s) (some fracs) num (some res) = some res' ∧
      kll_double_sketch_get_quantiles (some s) (some fracs) num (some res) = some res' ∧
      (∀ j (hj : j < fracs.length), j < jf → j < res.length →
        ∃ v, s.get_quantile fracs[j] = .ok v ∧ res'[j]? = some v) ∧
      (∀ j, jf ≤ j → res'[j]? = res[j]?) ∧
      (∀ (t : KllSketch) (num' : Nat) (r : List Int), t.n = 0 → num' ≠ 0 →
        kll_float_sketch_get_quantiles_evenly_spaced (some t) num' (some r) = some r) := by
  have hok' : ∀ j, 0 ≤ j → j < jf →
      ∃ f v, fracs[j]? = some f ∧ s.get_quantile f = .ok v := by
    intro j _ hj
    have hjl2 : j < fracs.length := by omega
    obtain ⟨v, hv⟩ := hok j hjl2 hj
    exact ⟨fracs[j], v, List.getElem?_eq_getElem hjl2, hv⟩
  have hfail' : ∃ f e, fracs[jf]? = some f ∧ s.get_quantile f = .error e := by
    obtain ⟨e, he⟩ := hfail
    exact ⟨fracs[jf], e, List.getElem?_eq_getElem hjl, he⟩
  have hmain := quantilesLoopF_abort s fracs num 0 res jf (by omega) (by omega) hok' hfail'
  refine ⟨quantilesLoopF s fracs 0 num res, ?_, ?_, ?_, ?_, ?_⟩
  · simp [kll_float_sketch_get_quantiles, hnum]
  · simp [kll_double_sketch_get_quantiles, hnum, quantilesLoopD_eq_loopF]
  · intro j hjl2 hj hlen2
    obtain ⟨f, v, hf, hv, hr⟩ := hmain.2 j (by omega) hj hlen2
    rw [List.getElem?_eq_getElem hjl2] at hf
    obtain rfl : f = fracs[j] := (Option.some.inj hf).symm
    exact ⟨v, hv, hr⟩
  · intro j hj
    exact hmain.1 j (Or.inr hj)
  · intro t num' r ht hn'
    have he : ∃ e, t.get_quantile_c (cDivNat 0 (num' - 1)) = .error e := by
      by_cases h1 : num' = 1
      · subst h1
        exact ⟨.rangeError, rfl⟩
      · have hd : ¬(num' - 1 = 0) := by omega
        refine ⟨.emptySketch, ?_⟩
        have hcd : cDivNat 0 (num' - 1) = CFrac.val ((0 : ℚ) / ((num' - 1 : Nat) : ℚ)) := by
          simp [cDivNat, hd]
        rw [hcd]
        show t.get_quantile ((0 : ℚ) / ((num' - 1 : Nat) : ℚ)) = .error .emptySketch
        have h0 : ((0 : ℚ) / ((num' - 1 : Nat) : ℚ)) = 0 := by simp
        rw [h0]
        norm_num [KllSketch.get_quantile, ht]
    obtain ⟨e, he⟩ := he
    simp [kll_float_sketch_get_quantiles_evenly_spaced, hn',
      evenlyLoopF_abort0 t num' num' r e he hn']

/-- C10 witness: fraction `3/2` at index 1 fails; index 0 keeps its
computed value and indices 1 and 2 keep their prior contents. -/
theorem claim_C10_batch_swallows_failure_witness :
    ∃ res',
      kll_float_sketch_get_quantiles (some skDemo) (some [0, 3/2, 1]) 3 (some [7, 7, 7]) =
        some res' ∧
      kll_double_sketch_get_quantiles (some skDemo) (some [0, 3/2, 1]) 3 (some [7, 7, 7]) =
        some res' ∧
      (∀ j (hj : j < ([0, 3/2, 1] : List ℚ).length), j < 1 →
        j < ([7, 7, 7] : List Int).length →
        ∃ v, skDemo.get_quantile (([0, 3/2, 1] : List ℚ)[j]) = .ok v ∧
          res'[j]? = some v) ∧
      (∀ j, 1 ≤ j → res'[j]? = ([7, 7, 7] : List Int)[j]?) ∧
      (∀ (t : KllSketch) (num' : Nat) (r : List Int), t.n = 0 → num' ≠ 0 →
        kll_float_sketch_get_quantiles_evenly_spaced (some t) num' (some r) = some r) :=
  claim_C10_batch_swallows_failure skDemo [0, 3/2, 1] 3 1 [7, 7, 7]
    (by decide) (by decide) (by decide)
    ⟨.rangeError, by
      simp only [List.getElem_cons_zero, List.getElem_cons_succ]
      norm_num [KllSketch.get_quantile]⟩
    (by
      intro j hj hj1
      interval_cases j
      simp only [List.getElem_cons_zero]
      exact ⟨1, by
        norm_num [KllSketch.get_quantile, skDemo, KllSketch.weightedItems,
          KllSketch.weightedLevels, KllSketch.sortWeighted, KllSketch.insertWeighted,
          KllSketch.cumSearch]⟩)
